import Mathlib

/-!
# Friday to-do application: formal model of the reminder/recurrence core

This file is a shallow embedding of the task-store operations of the
repository (src/App.tsx, src/components/TaskItem.tsx,
src/services/geminiService.ts) together with proofs of the specified
properties of the reminder scanner, the recurrence roll-forward, the
storage initialisation and the AI-service fallbacks.

## Modelling conventions

* JavaScript `Date` objects are modelled by `JSDate`, a number of
  milliseconds since the Unix epoch (`Int`; JS `Date`s store an integral
  millisecond timestamp).  The host locale is fixed to UTC with no
  daylight-saving shifts, so the local-time accessors used by the code
  (`getDate`, `getMonth`, `getFullYear`, `setDate`, `setMonth`,
  `setFullYear`) coincide with the UTC civil fields.  The ECMAScript
  `MakeDay` rule (out-of-range day/month values spill into the following
  months/years) is captured by `daysFromCivil` being defined on
  arbitrary day arguments.  The civil/day conversions are the standard
  proleptic-Gregorian algorithms used by `Date` implementations; `/` and
  `%` on `Int` are Euclidean (= floor for the positive divisors used
  here), matching ECMAScript's real-number floor.
* A reminder's `isoString` field holds an ISO-8601 timestamp; we model
  it by the instant it denotes (a `JSDate`), since every write of the
  field inside the application goes through `Date.prototype.toISOString`,
  an injective encoding of the instant.  Timestamp strings arriving from
  the AI boundary are parsed by `parseIso`, which models the canonical
  UTC (`Z`-suffixed) profile of the ECMAScript date-time string format;
  a reminder whose timestamp does not parse is dropped at that boundary
  (in JS it would denote an `Invalid Date` that never fires and cannot
  be roll-forwarded without throwing).
* `JSON.parse` is modelled by the executable parser `Json.parse`;
  a `none` result models the thrown `SyntaxError`.
* The external Gemini calls are modelled by passing the outcome of the
  network exchange explicitly: `Except Unit (Option String)` is the
  request result (`.error ()` = rejected promise / network or API error,
  `.ok none` = missing `response.text`, `.ok (some s)` = reply text `s`).
* Notification, audio and scheduled-notification side effects
  (`showNotification`, `playAlarmSound`, `scheduleNativeNotification`)
  do not touch the task store; the scanner returns the list of emitted
  notification events alongside the new store.
-/

/-! ## JavaScript `Date` model -/

/-- Days-since-epoch → civil (year, month 1..12, day 1..31) conversion,
the standard proleptic-Gregorian algorithm used by `Date`
implementations. -/
def civilFromDays (z : Int) : Int × Int × Int :=
  let z' := z + 719468
  let era := z' / 146097
  let doe := z' % 146097
  let yoe := (doe - doe / 1460 + doe / 36524 - doe / 146096) / 365
  let y := yoe + era * 400
  let doy := doe - (365 * yoe + yoe / 4 - yoe / 100)
  let mp := (5 * doy + 2) / 153
  let d := doy - (153 * mp + 2) / 5 + 1
  let m := if mp < 10 then mp + 3 else mp - 9
  (if m ≤ 2 then y + 1 else y, m, d)

/-- Civil (year, month 1..12, day) → days since epoch.  The day argument
may lie outside 1..(days in month); excess days spill into the following
months, exactly as in ECMAScript `MakeDay`. -/
def daysFromCivil (y m d : Int) : Int :=
  let y' := if m ≤ 2 then y - 1 else y
  let era := y' / 400
  let yoe := y' - era * 400
  let doy := (153 * (if m > 2 then m - 3 else m + 9) + 2) / 5 + d - 1
  let doe := yoe * 365 + yoe / 4 - yoe / 100 + doy
  era * 146097 + doe - 719468

/-- A JavaScript `Date`: an integral count of milliseconds since the
Unix epoch. -/
structure JSDate where
  time : Int
  deriving Repr, DecidableEq

def msPerDay : Int := 86400000

namespace JSDate

/-- `Date.prototype.getTime`. -/
def getTime (d : JSDate) : Int := d.time

/-- Days since epoch of the instant (floor). -/
def epochDays (d : JSDate) : Int := d.time / msPerDay

/-- Milliseconds within the day. -/
def msOfDay (d : JSDate) : Int := d.time % msPerDay

/-- `getFullYear` (UTC locale). -/
def getFullYear (d : JSDate) : Int := (civilFromDays d.epochDays).1

/-- `getMonth` (UTC locale), 0-based as in JS. -/
def getMonth (d : JSDate) : Int := (civilFromDays d.epochDays).2.1 - 1

/-- `getDate` (UTC locale): day of month, 1-based. -/
def getDate (d : JSDate) : Int := (civilFromDays d.epochDays).2.2

/-- `setDate n`: replace the day-of-month field by `n` (spilling per
`MakeDay`), keeping the time of day. -/
def setDate (d : JSDate) (n : Int) : JSDate :=
  let c := civilFromDays d.epochDays
  ⟨daysFromCivil c.1 c.2.1 n * msPerDay + d.msOfDay⟩

/-- `setMonth n`: replace the 0-based month field by `n` (arbitrary
integer; whole years carry, excess days spill), keeping the day-of-month
field and the time of day. -/
def setMonth (d : JSDate) (n : Int) : JSDate :=
  let c := civilFromDays d.epochDays
  ⟨daysFromCivil (c.1 + n / 12) (n % 12 + 1) c.2.2 * msPerDay + d.msOfDay⟩

/-- `setFullYear y`: replace the year field, keeping month, the
day-of-month field (spilling, e.g. Feb 29 → Mar 1 of a non-leap year)
and the time of day. -/
def setFullYear (d : JSDate) (y : Int) : JSDate :=
  let c := civilFromDays d.epochDays
  ⟨daysFromCivil y c.2.1 c.2.2 * msPerDay + d.msOfDay⟩

end JSDate

/-- The `JSDate` denoted by an ISO-8601 UTC timestamp
`y-m-dThh:mm:ssZ` (1-based month). -/
def mkUTC (y m d hh mm ss : Int) : JSDate :=
  ⟨daysFromCivil y m d * msPerDay + ((hh * 60 + mm) * 60 + ss) * 1000⟩

/-! ### Auxiliary functions for verifying the civil-date conversion -/

/-- Year-of-era estimator from the day-of-era, as in `civilFromDays`. -/
def yoeOfI (doe : Int) : Int := (doe - doe / 1460 + doe / 36524 - doe / 146096) / 365

/-- First day-of-era of a year-of-era. -/
def yearStartI (y : Int) : Int := 365 * y + y / 4 - y / 100

/-- Boundary check: the estimator is exact at the first and last day of
the year-of-era `y`. -/
def yearOkI (y : Nat) : Bool :=
  (yoeOfI (yearStartI (y : Int)) == (y : Int)) &&
  (yoeOfI (yearStartI ((y : Int) + 1) - 1) == (y : Int))

/-- Check `f` on every point of `[lo, lo+len)`, splitting the range in
halves so that evaluation depth stays logarithmic. -/
def chkRange (f : Nat → Bool) : Nat → Nat → Nat → Bool
  | 0, _, len => len == 0
  | _ + 1, lo, 1 => f lo
  | fuel + 1, lo, len =>
    if len == 0 then true
    else chkRange f fuel lo (len / 2) && chkRange f fuel (lo + len / 2) (len - len / 2)

/-! ## Data model (src/types.ts, with the `type` reminder mode used by
src/App.tsx and src/components/TaskItem.tsx).  The application model
lives in the `Friday` namespace (the repository name), since `Task` is
taken by the Lean core library. -/

namespace Friday

/-- `Reminder.recurrence`: the fixed enum of the analysis schema and the
recurrence editor; an absent field is `none`. -/
inductive Recurrence where
  | daily
  | weekly
  | monthly
  | yearly
  deriving Repr, DecidableEq

/-- `Reminder.type`: notification vs. audible alarm mode. -/
inductive RemMode where
  | notification
  | alarm
  deriving Repr, DecidableEq

/-- A reminder record.  `isoString` is modelled by the instant the
ISO-8601 string denotes; `hasNotified` models the truthiness of the
optional boolean field (an absent field reads as `false`). -/
structure Reminder where
  isoString : JSDate
  recurrence : Option Recurrence := none
  hasNotified : Bool := false
  type : Option RemMode := none
  deriving Repr, DecidableEq

structure SubTask where
  id : String
  text : String
  completed : Bool
  deriving Repr, DecidableEq

structure Task where
  id : String
  text : String
  completed : Bool
  createdAt : Int
  subtasks : List SubTask
  category : Option String := none
  reminder : Option Reminder := none
  deriving Repr, DecidableEq

/-- A platform-notification side effect emitted by the reminder scanner
(title, body and tag exactly as built in `checkReminders`; the constant
icon/renotify/data options are omitted). -/
structure NotifEvent where
  title : String
  body : String
  tag : String
  deriving Repr, DecidableEq

/-! ## JSON values and `JSON.parse` (used by the storage initialiser and
the Gemini reply handling) -/

inductive Json where
  | null : Json
  | bool (b : Bool) : Json
  | num (lex : String) : Json
  | str (s : String) : Json
  | arr (items : List Json) : Json
  | obj (members : List (String × Json)) : Json

def isJsonWs (c : Char) : Bool := c = ' ' || c = '\t' || c = '\n' || c = '\r'

def skipWs : List Char → List Char
  | [] => []
  | c :: cs => if isJsonWs c then skipWs cs else c :: cs

def hexVal (c : Char) : Option Nat :=
  if '0' ≤ c ∧ c ≤ '9' then some (c.toNat - 48)
  else if 'a' ≤ c ∧ c ≤ 'f' then some (c.toNat - 97 + 10)
  else if 'A' ≤ c ∧ c ≤ 'F' then some (c.toNat - 65 + 10)
  else none

/-- Longest digit prefix and the remaining input. -/
def takeDigits : List Char → List Char × List Char
  | [] => ([], [])
  | c :: cs =>
    if c.isDigit then
      let p := takeDigits cs
      (c :: p.1, p.2)
    else ([], c :: cs)

/-- JSON integer part: `0` or a nonzero digit followed by digits. -/
def parseIntPart : List Char → Option (List Char × List Char)
  | [] => none
  | c :: cs =>
    if c = '0' then some (['0'], cs)
    else if c.isDigit then
      let p := takeDigits cs
      some (c :: p.1, p.2)
    else none

/-- Optional JSON fraction part. -/
def parseFracPart : List Char → Option (List Char × List Char)
  | [] => some ([], [])
  | c :: cs =>
    if c = '.' then
      let p := takeDigits cs
      if p.1.isEmpty then none else some ('.' :: p.1, p.2)
    else some ([], c :: cs)

/-- Optional JSON exponent part. -/
def parseExpPart : List Char → Option (List Char × List Char)
  | [] => some ([], [])
  | c :: cs =>
    if c = 'e' ∨ c = 'E' then
      match cs with
      | s :: cs' =>
        if s = '+' ∨ s = '-' then
          let p := takeDigits cs'
          if p.1.isEmpty then none else some (c :: s :: p.1, p.2)
        else
          let p := takeDigits (s :: cs')
          if p.1.isEmpty then none else some (c :: p.1, p.2)
      | [] => none
    else some ([], c :: cs)

/-- A JSON number literal (returned as its lexeme). -/
def parseNumber (cs : List Char) : Option (String × List Char) :=
  let start := match cs with
    | c :: cs' => if c = '-' then (['-'], cs') else ([], cs)
    | [] => ([], [])
  match parseIntPart start.2 with
  | none => none
  | some (ip, cs1) =>
    match parseFracPart cs1 with
    | none => none
    | some (fp, cs2) =>
      match parseExpPart cs2 with
      | none => none
      | some (ep, cs3) => some (String.mk (start.1 ++ ip ++ fp ++ ep), cs3)

/-- Body of a JSON string after the opening quote, with escapes. -/
def parseStringBody : Nat → List Char → Option (String × List Char)
  | 0, _ => none
  | _ + 1, [] => none
  | fuel + 1, c :: cs =>
    if c = '"' then some ("", cs)
    else if c = '\\' then
      match cs with
      | [] => none
      | e :: cs' =>
        let esc : Option (Char × List Char) :=
          if e = '"' then some ('"', cs')
          else if e = '\\' then some ('\\', cs')
          else if e = '/' then some ('/', cs')
          else if e = 'b' then some ('\x08', cs')
          else if e = 'f' then some ('\x0c', cs')
          else if e = 'n' then some ('\n', cs')
          else if e = 'r' then some ('\x0d', cs')
          else if e = 't' then some ('\t', cs')
          else if e = 'u' then
            match cs' with
            | a :: b :: c2 :: d :: cs'' =>
              match hexVal a, hexVal b, hexVal c2, hexVal d with
              | some x1, some x2, some x3, some x4 =>
                some (Char.ofNat (((x1 * 16 + x2) * 16 + x3) * 16 + x4), cs'')
              | _, _, _, _ => none
            | _ => none
          else none
        match esc with
        | none => none
        | some (ch, rest) =>
          match parseStringBody fuel rest with
          | none => none
          | some (s, rest') => some (String.mk (ch :: s.data), rest')
    else if c.toNat < 32 then none
    else
      match parseStringBody fuel cs with
      | none => none
      | some (s, rest') => some (String.mk (c :: s.data), rest')

mutual

/-- A JSON value (leading whitespace allowed). -/
def parseVal : Nat → List Char → Option (Json × List Char)
  | 0, _ => none
  | fuel + 1, cs =>
    match skipWs cs with
    | 'n' :: 'u' :: 'l' :: 'l' :: rest => some (.null, rest)
    | 't' :: 'r' :: 'u' :: 'e' :: rest => some (.bool true, rest)
    | 'f' :: 'a' :: 'l' :: 's' :: 'e' :: rest => some (.bool false, rest)
    | '"' :: rest =>
      match parseStringBody (rest.length + 1) rest with
      | none => none
      | some (s, rest') => some (.str s, rest')
    | '[' :: rest =>
      match skipWs rest with
      | ']' :: rest' => some (.arr [], rest')
      | cs' =>
        match parseElems fuel cs' with
        | none => none
        | some (items, rest') => some (.arr items, rest')
    | '{' :: rest =>
      match skipWs rest with
      | '}' :: rest' => some (.obj [], rest')
      | cs' =>
        match parseMembers fuel cs' with
        | none => none
        | some (ms, rest') => some (.obj ms, rest')
    | c :: rest =>
      if c = '-' ∨ c.isDigit then
        match parseNumber (c :: rest) with
        | none => none
        | some (lex, rest') => some (.num lex, rest')
      else none
    | [] => none

/-- One-or-more comma-separated array elements, then `]`. -/
def parseElems : Nat → List Char → Option (List Json × List Char)
  | 0, _ => none
  | fuel + 1, cs =>
    match parseVal fuel cs with
    | none => none
    | some (j, rest) =>
      match skipWs rest with
      | ',' :: rest' =>
        match parseElems fuel rest' with
        | none => none
        | some (items, rest'') => some (j :: items, rest'')
      | ']' :: rest' => some ([j], rest')
      | _ => none

/-- One-or-more `"key": value` members, then `}`. -/
def parseMembers : Nat → List Char → Option (List (String × Json) × List Char)
  | 0, _ => none
  | fuel + 1, cs =>
    match skipWs cs with
    | '"' :: rest =>
      match parseStringBody (rest.length + 1) rest with
      | none => none
      | some (key, rest1) =>
        match skipWs rest1 with
        | ':' :: rest2 =>
          match parseVal fuel rest2 with
          | none => none
          | some (v, rest3) =>
            match skipWs rest3 with
            | ',' :: rest4 =>
              match parseMembers fuel rest4 with
              | none => none
              | some (ms, rest5) => some ((key, v) :: ms, rest5)
            | '}' :: rest4 => some ([(key, v)], rest4)
            | _ => none
        | _ => none
    | _ => none

end

/-- `JSON.parse`: `none` models the thrown `SyntaxError`.  The whole
input must be consumed (up to trailing whitespace). -/
def Json.parse (s : String) : Option Json :=
  match parseVal (s.length + 1) s.data with
  | some (j, rest) => if (skipWs rest).isEmpty then some j else none
  | none => none

/-- Property lookup on a parsed value (`undefined` for non-objects and
missing keys).  `JSON.parse` keeps the last duplicate key; duplicate
keys do not occur in the replies handled here. -/
def Json.field : Json → String → Option Json
  | .obj ms, key => ms.lookup key
  | _, _ => none

/-- JavaScript truthiness of a parsed JSON value (the truthiness of a
numeric value is approximated by its lexeme being `"0"`; no code path
below tests a number for truthiness). -/
def Json.truthy : Json → Bool
  | .null => false
  | .bool b => b
  | .num lex => lex != "0"
  | .str s => s != ""
  | .arr _ => true
  | .obj _ => true

/-! ## ISO-8601 timestamp strings at the AI boundary -/

def isLeap (y : Int) : Bool := (y % 4 == 0 && y % 100 != 0) || y % 400 == 0

def daysInMonth (y m : Int) : Int :=
  if m = 2 then (if isLeap y then 29 else 28)
  else if m = 4 ∨ m = 6 ∨ m = 9 ∨ m = 11 then 30
  else 31

/-- Two decimal digits. -/
def dig2 (a b : Char) : Option Nat :=
  if a.isDigit && b.isDigit then some ((a.toNat - 48) * 10 + (b.toNat - 48)) else none

/-- Three decimal digits. -/
def dig3 (a b c : Char) : Option Nat :=
  if a.isDigit && b.isDigit && c.isDigit then
    some ((a.toNat - 48) * 100 + (b.toNat - 48) * 10 + (c.toNat - 48))
  else none

/-- Four decimal digits. -/
def dig4 (a b c d : Char) : Option Nat :=
  match dig2 a b, dig2 c d with
  | some hi, some lo => some (hi * 100 + lo)
  | _, _ => none

/-- Time-of-day part of an ISO timestamp: `HH:MM`, `HH:MM:SS` or
`HH:MM:SS.sss`, optionally `Z`-suffixed. -/
def parseIsoTime : List Char → Option (Nat × Nat × Nat × Nat)
  | [h1, h2, ':', n1, n2] =>
    match dig2 h1 h2, dig2 n1 n2 with
    | some h, some n => some (h, n, 0, 0)
    | _, _ => none
  | [h1, h2, ':', n1, n2, 'Z'] =>
    match dig2 h1 h2, dig2 n1 n2 with
    | some h, some n => some (h, n, 0, 0)
    | _, _ => none
  | [h1, h2, ':', n1, n2, ':', s1, s2] =>
    match dig2 h1 h2, dig2 n1 n2, dig2 s1 s2 with
    | some h, some n, some sec => some (h, n, sec, 0)
    | _, _, _ => none
  | [h1, h2, ':', n1, n2, ':', s1, s2, 'Z'] =>
    match dig2 h1 h2, dig2 n1 n2, dig2 s1 s2 with
    | some h, some n, some sec => some (h, n, sec, 0)
    | _, _, _ => none
  | [h1, h2, ':', n1, n2, ':', s1, s2, '.', a, b, c] =>
    match dig2 h1 h2, dig2 n1 n2, dig2 s1 s2, dig3 a b c with
    | some h, some n, some sec, some ms => some (h, n, sec, ms)
    | _, _, _, _ => none
  | [h1, h2, ':', n1, n2, ':', s1, s2, '.', a, b, c, 'Z'] =>
    match dig2 h1 h2, dig2 n1 n2, dig2 s1 s2, dig3 a b c with
    | some h, some n, some sec, some ms => some (h, n, sec, ms)
    | _, _, _, _ => none
  | _ => none

/-- `new Date(s)` on the canonical UTC profile of the ECMAScript
date-time string format (`YYYY-MM-DD`, optionally followed by
`THH:MM[:SS[.sss]][Z]`); `none` models an `Invalid Date`.  The modelled
locale is UTC, so the offset-less date-time form denotes the same
instant as the `Z` form. -/
def parseIso (s : String) : Option JSDate :=
  let build : Nat → Nat → Nat → Nat × Nat × Nat × Nat → Option JSDate := fun y m d t =>
    if 1 ≤ m ∧ m ≤ 12 ∧ 1 ≤ d ∧ (d : Int) ≤ daysInMonth y m ∧
       t.1 < 24 ∧ t.2.1 < 60 ∧ t.2.2.1 < 60 then
      some ⟨daysFromCivil y m d * msPerDay
            + ((t.1 * 60 + t.2.1) * 60 + t.2.2.1 : Int) * 1000 + t.2.2.2⟩
    else none
  match s.data with
  | y1 :: y2 :: y3 :: y4 :: '-' :: m1 :: m2 :: '-' :: d1 :: d2 :: rest =>
    match dig4 y1 y2 y3 y4, dig2 m1 m2, dig2 d1 d2 with
    | some y, some m, some d =>
      match rest with
      | [] => build y m d (0, 0, 0, 0)
      | 'T' :: timePart =>
        match parseIsoTime timePart with
        | some t => build y m d t
        | none => none
      | _ => none
    | _, _, _ => none
  | _ => none

/-! ## Gemini service (src/services/geminiService.ts)

The network exchange is an explicit argument: `.error ()` models a
rejected promise (network/API error), `.ok none` a missing
`response.text`, and `.ok (some s)` a reply with text `s`. -/

/-- `breakDownTask`: on success the parsed JSON array is returned as-is
(the code checks `Array.isArray` only); every failure path — rejected
call, absent or empty `response.text`, unparseable JSON, non-array
JSON — yields `[]`.  The `taskText` argument only feeds the prompt. -/
def breakDownTask (taskText : String) (response : Except Unit (Option String)) :
    List Json :=
  match response with
  | .error _ => []
  | .ok none => []
  | .ok (some txt) =>
    if txt = "" then []
    else
      match Json.parse txt with
      | some (.arr items) => items
      | some _ => []
      | none => []

/-- Result record of `analyzeTask`. -/
structure Analysis where
  text : String
  category : String
  reminder : Option Reminder
  deriving Repr, DecidableEq

/-- `data.text || input` on a looked-up JSON field: an absent, empty or
non-string value falls back to the default.  (A non-string truthy value
would be stored as-is by JS; it is outside the reply schema and never
reaches the claims below.) -/
def jsOrStr (v : Option Json) (dflt : String) : String :=
  match v with
  | some (.str s) => if s = "" then dflt else s
  | _ => dflt

def recurrenceOfString (s : String) : Option Recurrence :=
  if s = "daily" then some .daily
  else if s = "weekly" then some .weekly
  else if s = "monthly" then some .monthly
  else if s = "yearly" then some .yearly
  else none

/-- `data.reminder || undefined` followed by use as a `Reminder`: a
falsy value is no reminder; a truthy object contributes its `isoString`
and `recurrence` fields (the schema has no `hasNotified`/`type` keys, so
those read as absent).  A reminder whose `isoString` does not denote a
valid instant is dropped here (it would be an `Invalid Date` in JS). -/
def reminderOfJson (j : Json) : Option Reminder :=
  if j.truthy then
    match j.field "isoString" with
    | some (.str s) =>
      match parseIso s with
      | some dt =>
        some { isoString := dt,
               recurrence := match j.field "recurrence" with
                 | some (.str r) => recurrenceOfString r
                 | _ => none,
               hasNotified := false,
               type := none }
      | none => none
    | _ => none
  else none

/-- `analyzeTask`: parse the reply into `{text, category, reminder}`
with per-field fallbacks; any failure (rejected call, absent or empty
`response.text`, unparseable JSON) is caught and yields the fallback
`{ text: input, category: "📝" }` with no reminder. -/
def analyzeTask (input : String) (response : Except Unit (Option String)) :
    Analysis :=
  match response with
  | .error _ => { text := input, category := "📝", reminder := none }
  | .ok none => { text := input, category := "📝", reminder := none }
  | .ok (some txt) =>
    if txt = "" then { text := input, category := "📝", reminder := none }
    else
      match Json.parse txt with
      | none => { text := input, category := "📝", reminder := none }
      | some data =>
        { text := jsOrStr (data.field "text") input,
          category := jsOrStr (data.field "category") "📝",
          reminder := (data.field "reminder").bind reminderOfJson }

/-! ## Task-store operations (src/App.tsx) -/

/-- Due test of the scanner: `now >= new Date(isoString).getTime()`. -/
def dueB (now : Int) (r : Reminder) : Bool := decide (r.isoString.getTime ≤ now)

/-- The notification built for a due task (tag = task id, title by
reminder mode, body = task text). -/
def notifOf (t : Task) (r : Reminder) : NotifEvent :=
  { title := if r.type == some RemMode.alarm then "🚨 Alarm" else "🔔 Reminder",
    body := t.text,
    tag := t.id }

/-- Store update of one scanner step for one task (the loop body of
`checkReminders` without the side effects). -/
def scanStep (now : Int) (t : Task) : Task :=
  match t.reminder with
  | none => t
  | some r =>
    if t.completed || r.hasNotified then t
    else if dueB now r then { t with reminder := some { r with hasNotified := true } }
    else t

/-- One scanner tick over the task list: the updated list together with
the notification events emitted (notifications fire only when
`Notification.permission === "granted"`; the `hasNotified` mark is set
regardless). -/
def checkReminders (granted : Bool) (now : Int) : List Task → List Task × List NotifEvent
  | [] => ([], [])
  | t :: ts =>
    let rest := checkReminders granted now ts
    match t.reminder with
    | none => (t :: rest.1, rest.2)
    | some r =>
      if t.completed || r.hasNotified then (t :: rest.1, rest.2)
      else if dueB now r then
        ({ t with reminder := some { r with hasNotified := true } } :: rest.1,
          (if granted then [notifOf t r] else []) ++ rest.2)
      else (t :: rest.1, rest.2)

/-- The recurrence roll-forward of `toggleTask`: one `switch` step of JS
date arithmetic on the current due date. -/
def rollForward (rec : Recurrence) (currentDue : JSDate) : JSDate :=
  match rec with
  | .daily => currentDue.setDate (currentDue.getDate + 1)
  | .weekly => currentDue.setDate (currentDue.getDate + 7)
  | .monthly => currentDue.setMonth (currentDue.getMonth + 1)
  | .yearly => currentDue.setFullYear (currentDue.getFullYear + 1)

/-- `toggleTask` on one task: completing a task whose reminder has a
recurrence rolls the reminder forward and leaves the task incomplete;
otherwise only `completed` is flipped.  (The accompanying
`scheduleNativeNotification` call is a best-effort side effect.) -/
def toggleStep (id : String) (t : Task) : Task :=
  if t.id ≠ id then t
  else
    let newCompleted := !t.completed
    match t.reminder with
    | some r =>
      if newCompleted then
        match r.recurrence with
        | some rec =>
          { t with completed := false,
                   reminder := some { r with
                     isoString := rollForward rec r.isoString,
                     hasNotified := false } }
        | none => { t with completed := newCompleted }
      else { t with completed := newCompleted }
    | none => { t with completed := newCompleted }

def toggleTask (id : String) (tasks : List Task) : List Task :=
  tasks.map (toggleStep id)

def deleteTask (id : String) (tasks : List Task) : List Task :=
  tasks.filter fun t => t.id ≠ id

def updateSubtasksStep (taskId : String) (subtasks : List SubTask) (t : Task) : Task :=
  if t.id = taskId then { t with subtasks := subtasks } else t

def updateSubtasks (taskId : String) (subtasks : List SubTask) (tasks : List Task) :
    List Task :=
  tasks.map (updateSubtasksStep taskId subtasks)

def toggleSubtaskStep (taskId subtaskId : String) (t : Task) : Task :=
  if t.id = taskId then
    { t with subtasks := t.subtasks.map fun st =>
        if st.id = subtaskId then { st with completed := !st.completed } else st }
  else t

def toggleSubtask (taskId subtaskId : String) (tasks : List Task) : List Task :=
  tasks.map (toggleSubtaskStep taskId subtaskId)

def updateTaskStep (id newText : String) (t : Task) : Task :=
  if t.id = id then { t with text := newText } else t

def updateTask (id newText : String) (tasks : List Task) : List Task :=
  tasks.map (updateTaskStep id newText)

def updateReminderStep (id : String) (reminder : Option Reminder) (t : Task) : Task :=
  if t.id = id then { t with reminder := reminder } else t

def updateReminder (id : String) (reminder : Option Reminder) (tasks : List Task) :
    List Task :=
  tasks.map (updateReminderStep id reminder)

/-- The reminder built by `handleReminderSave` in TaskItem: the chosen
date/time, the chosen recurrence (`"none"` maps to absent) and mode,
and always `hasNotified: false`. -/
def savedReminder (dateObj : JSDate) (recurrence : Option Recurrence) (mode : RemMode) :
    Reminder :=
  { isoString := dateObj, recurrence := recurrence, hasNotified := false,
    type := some mode }

/-- `handleReminderSave`: store the freshly built reminder on the task. -/
def handleReminderSave (id : String) (dateObj : JSDate) (recurrence : Option Recurrence)
    (mode : RemMode) (tasks : List Task) : List Task :=
  updateReminder id (some (savedReminder dateObj recurrence mode)) tasks

/-- The `useState` initialiser: `saved ? JSON.parse(saved) : []`.  An
absent key (and the falsy empty string) gives the empty array; otherwise
the raw `JSON.parse` result is used with no exception handling and no
shape validation, so `none` means the exception propagates out of the
initialiser. -/
def initialTasks (saved : Option String) : Option Json :=
  match saved with
  | none => some (.arr [])
  | some s => if s = "" then some (.arr []) else Json.parse s

/-- The optimistic placeholder record inserted by `handleAddTask`. -/
def tempTask (tempId rawInput : String) (now : Int) : Task :=
  { id := tempId, text := rawInput, completed := false, createdAt := now,
    subtasks := [], category := some "...", reminder := none }

/-- The patch applied when the `analyzeTask` promise resolves: update
text, category and reminder of the task with the optimistic id. -/
def applyAnalysisStep (tempId : String) (analysis : Analysis) (t : Task) : Task :=
  if t.id = tempId then
    { t with text := analysis.text, category := some analysis.category,
             reminder := analysis.reminder }
  else t

def applyAnalysis (tempId : String) (analysis : Analysis) (tasks : List Task) :
    List Task :=
  tasks.map (applyAnalysisStep tempId analysis)

/-- The patch applied by the `catch` branch of `handleAddTask`. -/
def applyAnalysisFallbackStep (tempId : String) (t : Task) : Task :=
  if t.id = tempId then { t with category := some "📝" } else t

def applyAnalysisFallback (tempId : String) (tasks : List Task) : List Task :=
  tasks.map (applyAnalysisFallbackStep tempId)

/-- A sub-task built from one reply item in `handleAiBreakdown` (the
reply schema types items as strings; a non-string item is represented
with empty text). -/
def subTaskOfJson (id : String) (j : Json) : SubTask :=
  { id := id, text := match j with | .str s => s | _ => "", completed := false }

/-- `handleAiBreakdown` in TaskItem: guarded by the task already having
sub-tasks; otherwise stores the sub-tasks built from the breakdown
result (`freshIds` supplies the generated UUIDs). -/
def handleAiBreakdown (t : Task) (response : Except Unit (Option String))
    (freshIds : Nat → String) (tasks : List Task) : List Task :=
  if t.subtasks.length > 0 then tasks
  else
    let subtaskTexts := breakDownTask t.text response
    let newSubtasks := subtaskTexts.enum.map fun p => subTaskOfJson (freshIds p.1) p.2
    updateSubtasks t.id newSubtasks tasks

/-- The per-task store updates performed by the application: the toggle
step, the scanner step, inline text editing, sub-task replacement and
toggling, the reminder editor's save, and the two resolutions of an
in-flight analysis.  (The remaining operations, `handleAddTask`'s
optimistic insert and `deleteTask`, insert a reminder-free record or
remove records.) -/
inductive PerTaskUpdate : (Task → Task) → Prop where
  | toggle (id : String) : PerTaskUpdate (toggleStep id)
  | scan (now : Int) : PerTaskUpdate (scanStep now)
  | editText (id newText : String) : PerTaskUpdate (updateTaskStep id newText)
  | setSubtasks (id : String) (subs : List SubTask) :
      PerTaskUpdate (updateSubtasksStep id subs)
  | toggleSub (id sid : String) : PerTaskUpdate (toggleSubtaskStep id sid)
  | saveReminder (id : String) (dateObj : JSDate) (rec : Option Recurrence)
      (mode : RemMode) :
      PerTaskUpdate (updateReminderStep id (some (savedReminder dateObj rec mode)))
  | analysisResolve (tempId input : String) (resp : Except Unit (Option String)) :
      PerTaskUpdate (applyAnalysisStep tempId (analyzeTask input resp))
  | analysisFallback (tempId : String) : PerTaskUpdate (applyAnalysisFallbackStep tempId)

/-! ## Concrete fixtures used by witnesses and examples -/

/-- A daily reminder due 2024-01-10T09:00:00Z, not yet notified. -/
def sampleDailyReminder : Reminder :=
  { isoString := mkUTC 2024 1 10 9 0 0, recurrence := some .daily }

/-- An incomplete task carrying `sampleDailyReminder`. -/
def sampleDailyTask : Task :=
  { id := "a", text := "water plants", completed := false, createdAt := 0,
    subtasks := [], category := some "🌱", reminder := some sampleDailyReminder }

/-- An incomplete task with a non-recurring reminder. -/
def sampleOnceTask : Task :=
  { id := "b", text := "call mom", completed := false, createdAt := 0,
    subtasks := [], category := some "📞",
    reminder := some { isoString := mkUTC 2024 1 10 17 0 0 } }

end Friday

/-! # Theorems

First the verification of the civil-date conversion (the two conversion
functions are mutually inverse), then the behaviour of the JS date
setters used by the recurrence roll-forward, then the claims. -/

theorem yoeOfI_mono {a b : Int} (h : a ≤ b) : yoeOfI a ≤ yoeOfI b := by
  unfold yoeOfI
  have : a - a / 1460 + a / 36524 - a / 146096 ≤ b - b / 1460 + b / 36524 - b / 146096 := by
    omega
  omega

theorem chkRange_spec (f : Nat → Bool) :
    ∀ fuel lo len, chkRange f fuel lo len = true → ∀ i, lo ≤ i → i < lo + len → f i = true := by
  intro fuel
  induction fuel with
  | zero =>
    intro lo len h i h1 h2
    simp only [chkRange, beq_iff_eq] at h
    omega
  | succ n ih =>
    intro lo len h i h1 h2
    rcases len with _ | len'
    · omega
    · rcases len' with _ | m
      · have hi : i = lo := by omega
        subst hi
        simpa only [chkRange] using h
      · rw [show chkRange f (n + 1) lo (m + 2) =
              (chkRange f n lo ((m + 2) / 2) &&
               chkRange f n (lo + (m + 2) / 2) ((m + 2) - (m + 2) / 2)) from by
              simp [chkRange]] at h
        rw [Bool.and_eq_true] at h
        rcases Nat.lt_or_ge i (lo + (m + 2) / 2) with h' | h'
        · exact ih lo ((m + 2) / 2) h.1 i h1 h'
        · exact ih (lo + (m + 2) / 2) ((m + 2) - (m + 2) / 2) h.2 i h' (by omega)

set_option maxHeartbeats 2000000 in
theorem yearOkI_all : chkRange yearOkI 12 0 400 = true := by decide

theorem yearOkI_holds (y : Nat) (h : y < 400) :
    yoeOfI (yearStartI (y : Int)) = (y : Int) ∧
    yoeOfI (yearStartI ((y : Int) + 1) - 1) = (y : Int) := by
  have := chkRange_spec yearOkI 12 0 400 yearOkI_all y (Nat.zero_le y) (by omega)
  simpa only [yearOkI, Bool.and_eq_true, beq_iff_eq] using this

theorem yoe_boundsI (doe : Int) (h0 : 0 ≤ doe) (h1 : doe < 146097) :
    yearStartI (yoeOfI doe) ≤ doe ∧ doe ≤ yearStartI (yoeOfI doe) + 365 ∧
    0 ≤ yoeOfI doe ∧ yoeOfI doe ≤ 399 := by
  have htop : yoeOfI 146096 = 399 := by decide
  have hbot : yoeOfI 0 = 0 := by decide
  have hge : 0 ≤ yoeOfI doe := by
    have := yoeOfI_mono (show (0 : Int) ≤ doe from h0)
    omega
  have hle : yoeOfI doe ≤ 399 := by
    have := yoeOfI_mono (show doe ≤ 146096 by omega)
    omega
  obtain ⟨n, hn⟩ : ∃ n : Nat, (n : Int) = yoeOfI doe := ⟨(yoeOfI doe).toNat, by omega⟩
  rw [← hn]
  refine ⟨?_, ?_, by omega, by omega⟩
  · by_contra hc
    push_neg at hc
    have hy1 : 1 ≤ n := by
      rcases Nat.eq_zero_or_pos n with hz | h1'
      · rw [hz] at hc
        have : yearStartI ((0 : Nat) : Int) = 0 := by decide
        omega
      · exact h1'
    have hdata := (yearOkI_holds (n - 1) (by omega)).2
    rw [show ((n - 1 : Nat) : Int) + 1 = (n : Int) by omega] at hdata
    have hmono := yoeOfI_mono (show doe ≤ yearStartI (n : Int) - 1 by omega)
    omega
  · by_contra hc
    push_neg at hc
    have hnext : yearStartI ((n : Int) + 1) ≤ yearStartI (n : Int) + 366 := by
      unfold yearStartI
      omega
    rcases Nat.lt_or_ge n 399 with hlt | hge'
    · have hdata := (yearOkI_holds (n + 1) (by omega)).1
      rw [show ((n + 1 : Nat) : Int) = (n : Int) + 1 by omega] at hdata
      have hmono := yoeOfI_mono (show yearStartI ((n : Int) + 1) ≤ doe by omega)
      omega
    · have hys : yearStartI ((399 : Nat) : Int) = 145731 := by decide
      have hn399 : n = 399 := by omega
      rw [hn399] at hc
      omega

set_option maxHeartbeats 1000000 in
theorem daysFromCivil_core (era doe Y : Int) (h0 : 0 ≤ doe) (h1 : doe < 146097)
    (hY : (doe - doe / 1460 + doe / 36524 - doe / 146096) / 365 = Y)
    (hY0 : 0 ≤ Y) (hY1 : Y ≤ 399)
    (hs1 : 365 * Y + Y / 4 - Y / 100 ≤ doe)
    (hs2 : doe ≤ 365 * Y + Y / 4 - Y / 100 + 365) :
    daysFromCivil (civilFromDays (era * 146097 + doe - 719468)).1
      (civilFromDays (era * 146097 + doe - 719468)).2.1
      (civilFromDays (era * 146097 + doe - 719468)).2.2
      = era * 146097 + doe - 719468 := by
  unfold civilFromDays daysFromCivil
  simp only
  rw [show era * 146097 + doe - 719468 + 719468 = era * 146097 + doe from by ring]
  rw [show (era * 146097 + doe) / 146097 = era from by omega]
  rw [show (era * 146097 + doe) % 146097 = doe from by omega]
  rw [hY]
  repeat' split
  all_goals try simp only [Int.add_sub_cancel, Int.sub_add_cancel]
  all_goals try rw [show (Y + era * 400) / 400 = era from by omega]
  all_goals try simp only [Int.add_sub_cancel, Int.sub_add_cancel]
  all_goals omega

/-- The two civil-date conversions are mutually inverse: converting a
day count to (year, month, day) and back is the identity. -/
theorem daysFromCivil_civilFromDays (z : Int) :
    daysFromCivil (civilFromDays z).1 (civilFromDays z).2.1 (civilFromDays z).2.2 = z := by
  obtain ⟨era, doe, hz, h0, h1⟩ :
      ∃ era doe, z = era * 146097 + doe - 719468 ∧ 0 ≤ doe ∧ doe < 146097 :=
    ⟨(z + 719468) / 146097, (z + 719468) % 146097, by omega, by omega, by omega⟩
  subst hz
  have hb := yoe_boundsI doe h0 h1
  unfold yearStartI yoeOfI at hb
  exact daysFromCivil_core era doe _ h0 h1 rfl hb.2.2.1 hb.2.2.2 hb.1 hb.2.1

/-- `daysFromCivil` is linear in its day argument (excess days spill one
day per unit). -/
theorem daysFromCivil_day_add (y m d k : Int) :
    daysFromCivil y m (d + k) = daysFromCivil y m d + k := by
  unfold daysFromCivil
  simp only
  repeat' split
  all_goals omega

/-- `d.setDate (d.getDate() + k)` advances the timestamp by exactly `k`
days of 86 400 000 ms. -/
theorem setDate_getDate_add (d : JSDate) (k : Int) :
    (d.setDate (d.getDate + k)).time = d.time + k * msPerDay := by
  unfold JSDate.setDate JSDate.getDate
  simp only
  rw [daysFromCivil_day_add, daysFromCivil_civilFromDays]
  unfold JSDate.epochDays JSDate.msOfDay msPerDay
  omega

/-! ## Reminder-scanner lemmas -/

open Friday

theorem scanStep_id (now : Int) (t : Task) : (scanStep now t).id = t.id := by
  unfold Friday.scanStep
  repeat' split
  all_goals rfl

theorem checkReminders_fst (g : Bool) (now : Int) (ts : List Task) :
    (checkReminders g now ts).1 = ts.map (scanStep now) := by
  induction ts with
  | nil => rfl
  | cons t ts ih =>
    cases hrem : t.reminder with
    | none => simp [Friday.checkReminders, Friday.scanStep, hrem, ih]
    | some r =>
      simp only [Friday.checkReminders, Friday.scanStep, hrem, List.map_cons]
      split_ifs <;> simp [ih]

theorem checkReminders_snd_denied (now : Int) (ts : List Task) :
    (checkReminders false now ts).2 = [] := by
  induction ts with
  | nil => rfl
  | cons t ts ih =>
    cases hrem : t.reminder with
    | none => simp [Friday.checkReminders, hrem, ih]
    | some r =>
      simp only [Friday.checkReminders, hrem]
      cases hc : (t.completed || r.hasNotified) with
      | true => simpa [hc] using ih
      | false =>
        cases hd : dueB now r with
        | false => simpa [hc, hd] using ih
        | true => simpa [hc, hd] using ih

theorem checkReminders_count_zero (g : Bool) (now : Int) (i : String) :
    ∀ ts : List Task,
      (∀ x ∈ ts, x.id = i → ∀ r, x.reminder = some r → r.hasNotified = true) →
      ((checkReminders g now ts).2.countP fun n => n.tag == i) = 0 := by
  intro ts
  induction ts with
  | nil => intro _; rfl
  | cons t ts ih =>
    intro h
    have hrec := ih fun x hx => h x (List.mem_cons_of_mem t hx)
    cases hrem : t.reminder with
    | none => simpa [Friday.checkReminders, hrem] using hrec
    | some r =>
      simp only [Friday.checkReminders, hrem]
      cases hc : (t.completed || r.hasNotified) with
      | true => simpa [hc] using hrec
      | false =>
        cases hd : dueB now r with
        | false => simpa [hc, hd] using hrec
        | true =>
          have hne : t.id ≠ i := by
            intro he
            have hh := h t (List.mem_cons_self t ts) he r hrem
            rw [hh] at hc
            simp at hc
          cases g <;>
            simp [hc, hd, List.countP_append, List.countP_cons, Friday.notifOf, hne, hrec]

theorem eq_of_mem_nodup_ids {ts : List Task} (h : (ts.map Task.id).Nodup)
    {a b : Task} (ha : a ∈ ts) (hb : b ∈ ts) (hid : a.id = b.id) : a = b :=
  List.inj_on_of_nodup_map h ha hb hid

theorem checkReminders_count_one (now : Int) (t : Task) (r : Reminder)
    (hc : t.completed = false) (hr : t.reminder = some r)
    (hn : r.hasNotified = false) (hdue : dueB now r = true) :
    ∀ ts : List Task, (ts.map Task.id).Nodup → t ∈ ts →
      ((checkReminders true now ts).2.countP fun n => n.tag == t.id) = 1 := by
  intro ts
  induction ts with
  | nil => intro _ hmem; exact absurd hmem (List.not_mem_nil t)
  | cons x xs ih =>
    intro hnd hmem
    have hnd' : (xs.map Task.id).Nodup := by
      simpa using hnd.of_cons
    rcases List.mem_cons.mp hmem with hx | hx
    · subst hx
      have hzero : ((checkReminders true now xs).2.countP fun n => n.tag == t.id) = 0 := by
        apply checkReminders_count_zero
        intro y hy hyid
        exfalso
        have : t.id ∈ xs.map Task.id := by
          rw [← hyid]
          exact List.mem_map_of_mem Task.id hy
        simp only [List.map_cons, List.nodup_cons] at hnd
        exact hnd.1 this
      simp only [Friday.checkReminders, hr]
      simp [hc, hn, hdue, List.countP_append, List.countP_cons, Friday.notifOf, hzero]
    · have hxid : x.id ≠ t.id := by
        intro he
        have heq : t = x := eq_of_mem_nodup_ids hnd (List.mem_cons_of_mem x hx)
          (List.mem_cons_self x xs) he.symm
        subst heq
        simp only [List.map_cons, List.nodup_cons] at hnd
        exact hnd.1 (List.mem_map_of_mem Task.id hx)
      have hrec := ih hnd' hx
      cases hrem : x.reminder with
      | none => simpa [Friday.checkReminders, hrem] using hrec
      | some rx =>
        simp only [Friday.checkReminders, hrem]
        cases hcx : (x.completed || rx.hasNotified) with
        | true => simpa [hcx] using hrec
        | false =>
          cases hd : dueB now rx with
          | false => simpa [hcx, hd] using hrec
          | true =>
            simp [hcx, hd, List.countP_append, List.countP_cons, Friday.notifOf,
              hxid, hrec]

theorem scanStep_due (now : Int) (t : Task) (r : Reminder)
    (hc : t.completed = false) (hr : t.reminder = some r)
    (hn : r.hasNotified = false) (hdue : dueB now r = true) :
    scanStep now t = { t with reminder := some { r with hasNotified := true } } := by
  unfold Friday.scanStep
  rw [hr]
  simp [hc, hn, hdue]

/-- C1: for a task `t` that is incomplete, carries a reminder not yet
notified, and is due at the tick time `now` (with notification
permission granted and distinct task ids), one scan tick emits exactly
one notification tagged with `t`'s id and stores `hasNotified = true`
on `t`'s reminder; a second tick at the same or a later time `now2`
emits no further notification tagged with `t`'s id. -/
theorem C1_scan_notifies_once_then_never (now now2 : Int) (tasks : List Task)
    (t : Task) (r : Reminder)
    (hnd : (tasks.map Task.id).Nodup) (ht : t ∈ tasks)
    (hc : t.completed = false) (hr : t.reminder = some r)
    (hn : r.hasNotified = false) (hdue : r.isoString.getTime ≤ now)
    (hle : now ≤ now2) :
    ((checkReminders true now tasks).2.countP fun n => n.tag == t.id) = 1 ∧
    { t with reminder := some { r with hasNotified := true } }
      ∈ (checkReminders true now tasks).1 ∧
    ((checkReminders true now2 (checkReminders true now tasks).1).2.countP
      fun n => n.tag == t.id) = 0 := by
  have hdueB : dueB now r = true := by
    unfold Friday.dueB
    exact decide_eq_true hdue
  refine ⟨checkReminders_count_one now t r hc hr hn hdueB tasks hnd ht, ?_, ?_⟩
  · rw [checkReminders_fst]
    rw [← scanStep_due now t r hc hr hn hdueB]
    exact List.mem_map_of_mem (scanStep now) ht
  · apply checkReminders_count_zero
    intro x hx hxid r' hxr
    rw [checkReminders_fst] at hx
    obtain ⟨y, hy, hxy⟩ := List.mem_map.mp hx
    have hyid : y.id = t.id := by
      rw [← hxid, ← hxy]
      exact (scanStep_id now y).symm
    have hyt : y = t := eq_of_mem_nodup_ids hnd hy ht hyid
    have hx2 : x = { t with reminder := some { r with hasNotified := true } } := by
      rw [← hxy, hyt, scanStep_due now t r hc hr hn hdueB]
    rw [hx2] at hxr
    simp only at hxr
    cases hxr
    rfl

/-- C1 witness: the concrete one-task store with the sample daily
reminder due at its own timestamp. -/
theorem C1_witness :
    ((checkReminders true 1704877200000 [sampleDailyTask]).2.countP
      fun n => n.tag == sampleDailyTask.id) = 1 ∧
    { sampleDailyTask with reminder := some { sampleDailyReminder with hasNotified := true } }
      ∈ (checkReminders true 1704877200000 [sampleDailyTask]).1 ∧
    ((checkReminders true 1704877200000
        (checkReminders true 1704877200000 [sampleDailyTask]).1).2.countP
      fun n => n.tag == sampleDailyTask.id) = 0 :=
  C1_scan_notifies_once_then_never 1704877200000 1704877200000 [sampleDailyTask]
    sampleDailyTask sampleDailyReminder (by decide) (by decide) (by decide) (by decide)
    (by decide) (by decide) (by decide)

/-- C10: the store update of a scan tick does not depend on the
notification permission — the task lists produced with permission
granted and denied are identical — and a denied tick emits no
notification events at all. -/
theorem C10_scan_permission_noninterference (now : Int) (tasks : List Task) :
    (checkReminders true now tasks).1 = (checkReminders false now tasks).1 ∧
    (checkReminders false now tasks).2 = [] := by
  constructor
  · rw [checkReminders_fst, checkReminders_fst]
  · exact checkReminders_snd_denied now tasks

/-! ## Recurrence roll-forward lemmas -/

theorem civilFromDays_month_core (era doe Y : Int) (h0 : 0 ≤ doe) (h1 : doe < 146097)
    (hY : (doe - doe / 1460 + doe / 36524 - doe / 146096) / 365 = Y)
    (hY0 : 0 ≤ Y) (hY1 : Y ≤ 399)
    (hs1 : 365 * Y + Y / 4 - Y / 100 ≤ doe)
    (hs2 : doe ≤ 365 * Y + Y / 4 - Y / 100 + 365) :
    1 ≤ (civilFromDays (era * 146097 + doe - 719468)).2.1 ∧
    (civilFromDays (era * 146097 + doe - 719468)).2.1 ≤ 12 := by
  unfold civilFromDays
  simp only
  rw [show era * 146097 + doe - 719468 + 719468 = era * 146097 + doe from by ring]
  rw [show (era * 146097 + doe) % 146097 = doe from by omega]
  rw [hY]
  repeat' split
  all_goals omega

/-- The month component of `civilFromDays` lies in 1..12. -/
theorem civilFromDays_month_bounds (z : Int) :
    1 ≤ (civilFromDays z).2.1 ∧ (civilFromDays z).2.1 ≤ 12 := by
  obtain ⟨era, doe, hz, h0, h1⟩ :
      ∃ era doe, z = era * 146097 + doe - 719468 ∧ 0 ≤ doe ∧ doe < 146097 :=
    ⟨(z + 719468) / 146097, (z + 719468) % 146097, by omega, by omega, by omega⟩
  subst hz
  have hb := yoe_boundsI doe h0 h1
  unfold yearStartI yoeOfI at hb
  exact civilFromDays_month_core era doe _ h0 h1 rfl hb.2.2.1 hb.2.2.2 hb.1 hb.2.1

/-- Month 13 of year `y` denotes the same days as month 1 of year
`y + 1` (the shifted-month formula continues past December). -/
theorem daysFromCivil_month13 (y d : Int) :
    daysFromCivil y 13 d = daysFromCivil (y + 1) 1 d := by
  unfold daysFromCivil
  norm_num

/-- `d.setMonth (d.getMonth() + 1)` increments the civil month field by
one, keeping year (with carry past December), day-of-month field and
time of day. -/
theorem setMonth_getMonth_succ (d : JSDate) :
    (d.setMonth (d.getMonth + 1)).time =
      daysFromCivil (civilFromDays d.epochDays).1 ((civilFromDays d.epochDays).2.1 + 1)
        (civilFromDays d.epochDays).2.2 * msPerDay + d.msOfDay := by
  obtain ⟨hm1, hm12⟩ := civilFromDays_month_bounds d.epochDays
  unfold JSDate.setMonth JSDate.getMonth
  simp only
  rw [show (civilFromDays d.epochDays).2.1 - 1 + 1 = (civilFromDays d.epochDays).2.1 from
    by ring]
  rcases eq_or_lt_of_le hm12 with h12 | h12
  · rw [h12, show (12 : Int) / 12 = 1 from by norm_num,
        show (12 : Int) % 12 + 1 = 1 from by norm_num,
        show (12 : Int) + 1 = 13 from by norm_num,
        daysFromCivil_month13]
  · rw [show (civilFromDays d.epochDays).2.1 / 12 = 0 from by omega,
        show (civilFromDays d.epochDays).2.1 % 12 =
          (civilFromDays d.epochDays).2.1 from by omega]
    norm_num

/-- `d.setFullYear (d.getFullYear() + 1)` increments the civil year
field by one, keeping month, day-of-month field and time of day. -/
theorem setFullYear_getFullYear_succ (d : JSDate) :
    (d.setFullYear (d.getFullYear + 1)).time =
      daysFromCivil ((civilFromDays d.epochDays).1 + 1) (civilFromDays d.epochDays).2.1
        (civilFromDays d.epochDays).2.2 * msPerDay + d.msOfDay := rfl

theorem rollForward_daily_time (dd : JSDate) :
    (rollForward .daily dd).time = dd.time + 86400000 := by
  unfold Friday.rollForward
  rw [setDate_getDate_add]
  unfold msPerDay
  ring

theorem rollForward_weekly_time (dd : JSDate) :
    (rollForward .weekly dd).time = dd.time + 7 * 86400000 := by
  unfold Friday.rollForward
  rw [setDate_getDate_add]
  unfold msPerDay
  ring

theorem rollForward_monthly_time (dd : JSDate) :
    (rollForward .monthly dd).time =
      daysFromCivil (civilFromDays dd.epochDays).1 ((civilFromDays dd.epochDays).2.1 + 1)
        (civilFromDays dd.epochDays).2.2 * msPerDay + dd.msOfDay :=
  setMonth_getMonth_succ dd

theorem rollForward_yearly_time (dd : JSDate) :
    (rollForward .yearly dd).time =
      daysFromCivil ((civilFromDays dd.epochDays).1 + 1) (civilFromDays dd.epochDays).2.1
        (civilFromDays dd.epochDays).2.2 * msPerDay + dd.msOfDay :=
  setFullYear_getFullYear_succ dd

theorem toggleStep_recurring (t : Task) (r : Reminder) (rec : Recurrence)
    (hc : t.completed = false) (hr : t.reminder = some r)
    (hrec : r.recurrence = some rec) :
    toggleStep t.id t
      = { t with completed := false,
                 reminder := some { r with isoString := rollForward rec r.isoString,
                                           hasNotified := false } } := by
  unfold Friday.toggleStep
  rw [hr]
  simp [hc, hrec]

/-- C2: toggling an incomplete task whose reminder has a recurrence
yields `completed = false`, `hasNotified = false`, and a due date
advanced by exactly one recurrence period — plus one day (86 400 000 ms)
for daily, plus seven days for weekly, the civil month field incremented
by one for monthly, the civil year field incremented by one for yearly —
and in particular the daily roll of 2024-01-10T09:00:00Z is
2024-01-11T09:00:00Z. -/
theorem C2_toggle_recurring_advances (t : Task) (r : Reminder) (rec : Recurrence)
    (hc : t.completed = false) (hr : t.reminder = some r)
    (hrec : r.recurrence = some rec) :
    toggleStep t.id t
      = { t with completed := false,
                 reminder := some { r with isoString := rollForward rec r.isoString,
                                           hasNotified := false } } ∧
    (rec = .daily → (rollForward rec r.isoString).time = r.isoString.time + 86400000) ∧
    (rec = .weekly →
      (rollForward rec r.isoString).time = r.isoString.time + 7 * 86400000) ∧
    (rec = .monthly → (rollForward rec r.isoString).time =
      daysFromCivil (civilFromDays r.isoString.epochDays).1
        ((civilFromDays r.isoString.epochDays).2.1 + 1)
        (civilFromDays r.isoString.epochDays).2.2 * msPerDay + r.isoString.msOfDay) ∧
    (rec = .yearly → (rollForward rec r.isoString).time =
      daysFromCivil ((civilFromDays r.isoString.epochDays).1 + 1)
        (civilFromDays r.isoString.epochDays).2.1
        (civilFromDays r.isoString.epochDays).2.2 * msPerDay + r.isoString.msOfDay) ∧
    rollForward .daily (mkUTC 2024 1 10 9 0 0) = mkUTC 2024 1 11 9 0 0 := by
  refine ⟨toggleStep_recurring t r rec hc hr hrec, ?_, ?_, ?_, ?_, by decide⟩
  · rintro rfl
    exact rollForward_daily_time _
  · rintro rfl
    exact rollForward_weekly_time _
  · rintro rfl
    exact rollForward_monthly_time _
  · rintro rfl
    exact rollForward_yearly_time _

/-- C2 witness: toggling the concrete daily sample task rolls its
reminder from 2024-01-10T09:00:00Z to 2024-01-11T09:00:00Z, resets
`hasNotified` and leaves the task incomplete. -/
theorem C2_witness :
    toggleStep "a" sampleDailyTask
      = { sampleDailyTask with
          completed := false,
          reminder := some { sampleDailyReminder with
                             isoString := mkUTC 2024 1 11 9 0 0,
                             hasNotified := false } } := by
  have h := C2_toggle_recurring_advances sampleDailyTask sampleDailyReminder .daily
    (by decide) rfl rfl
  have hroll : rollForward .daily sampleDailyReminder.isoString = mkUTC 2024 1 11 9 0 0 := by
    decide
  have h1 := h.1
  rw [hroll] at h1
  exact h1

/-- C3: toggling a task whose reminder is absent, or present without a
recurrence, only negates `completed`; the reminder (timestamp,
recurrence, `hasNotified`, mode) and all other fields (id, text,
creation time, sub-tasks, category) are unchanged. -/
theorem C3_toggle_plain_flips_completed_only (t : Task)
    (h : t.reminder = none ∨ ∃ r, t.reminder = some r ∧ r.recurrence = none) :
    toggleStep t.id t = { t with completed := !t.completed } := by
  unfold Friday.toggleStep
  rcases h with h | ⟨r, hr, hrec⟩
  · rw [h]
    simp
  · rw [hr]
    cases hc : t.completed <;> simp [hrec, hc]

/-- C3 witness: toggling the concrete non-recurring sample task flips
only its `completed` flag. -/
theorem C3_witness :
    toggleStep "b" sampleOnceTask = { sampleOnceTask with completed := true } := by
  have h := C3_toggle_plain_flips_completed_only sampleOnceTask
    (Or.inr ⟨{ isoString := mkUTC 2024 1 10 17 0 0 }, rfl, rfl⟩)
  exact h

/-- C4: completing an incomplete monthly task due 2024-01-31T09:00:00Z
advances its reminder by the standard calendar rollover rule: the month
number is incremented and the excess days spill into the following
month — Jan 31 + 1 month is Mar 2 in leap-year 2024 and Mar 3 in
non-leap 2023 — with no special-casing of short months (the general
monthly roll always increments the civil month field and lets
`daysFromCivil` spill the day). -/
theorem C4_monthly_rollover_spills :
    toggleTask "m" [{ id := "m", text := "pay rent", completed := false, createdAt := 0,
                      subtasks := [], category := none,
                      reminder := some { isoString := mkUTC 2024 1 31 9 0 0,
                                         recurrence := some .monthly } }]
      = [{ id := "m", text := "pay rent", completed := false, createdAt := 0,
           subtasks := [], category := none,
           reminder := some { isoString := mkUTC 2024 3 2 9 0 0,
                              recurrence := some .monthly, hasNotified := false } }] ∧
    rollForward .monthly (mkUTC 2024 1 31 9 0 0) = mkUTC 2024 3 2 9 0 0 ∧
    rollForward .monthly (mkUTC 2023 1 31 9 0 0) = mkUTC 2023 3 3 9 0 0 ∧
    ∀ dd : JSDate, (rollForward .monthly dd).time =
      daysFromCivil (civilFromDays dd.epochDays).1 ((civilFromDays dd.epochDays).2.1 + 1)
        (civilFromDays dd.epochDays).2.2 * msPerDay + dd.msOfDay :=
  ⟨by decide, by decide, by decide, rollForward_monthly_time⟩

/-! ## The hasNotified-reset invariant -/

theorem reminderOfJson_hasNotified (j : Json) (r : Reminder)
    (h : reminderOfJson j = some r) : r.hasNotified = false := by
  unfold Friday.reminderOfJson at h
  repeat' split at h
  all_goals simp_all
  all_goals rw [← h]

theorem analyzeTask_reminder_hasNotified (input : String)
    (resp : Except Unit (Option String)) (r : Reminder)
    (h : (analyzeTask input resp).reminder = some r) : r.hasNotified = false := by
  unfold Friday.analyzeTask at h
  repeat' split at h
  all_goals simp_all
  obtain ⟨j, hj, hr2⟩ := Option.bind_eq_some.mp h
  exact reminderOfJson_hasNotified j r hr2

/-- C5: no per-task store update of the application changes a reminder's
due timestamp while leaving `hasNotified = true`: whenever an operation
(toggle roll-forward, scanner step, text/sub-task edits, the reminder
editor's save, or an analysis resolution) turns a task with reminder `r`
into one with reminder `r'` and a different timestamp, `r'` has
`hasNotified = false`.  (The two remaining store operations add a
reminder-free record or delete records.) -/
theorem C5_isoString_advance_resets_hasNotified (f : Task → Task)
    (hf : PerTaskUpdate f) (t : Task) (r r' : Reminder)
    (hr : t.reminder = some r) (hr' : (f t).reminder = some r')
    (hchanged : r'.isoString ≠ r.isoString) : r'.hasNotified = false := by
  cases hf with
  | toggle id =>
    unfold Friday.toggleStep at hr'
    by_cases hid : t.id ≠ id
    · rw [if_pos hid, hr] at hr'
      cases hr'
      exact absurd rfl hchanged
    · rw [if_neg hid] at hr'
      simp only [hr] at hr'
      cases hcomp : t.completed with
      | true =>
        rw [hcomp] at hr'
        simp only [Bool.not_true] at hr'
        simp at hr'
        rw [← hr'] at hchanged
        exact absurd rfl hchanged
      | false =>
        rw [hcomp] at hr'
        simp only [Bool.not_false] at hr'
        cases hrec : r.recurrence with
        | none =>
          rw [hrec] at hr'
          simp at hr'
          rw [← hr'] at hchanged
          exact absurd rfl hchanged
        | some rec =>
          rw [hrec] at hr'
          simp at hr'
          rw [← hr']
  | scan now =>
    unfold Friday.scanStep at hr'
    rw [hr] at hr'
    simp only at hr'
    split at hr'
    · rw [hr] at hr'
      cases hr'
      exact absurd rfl hchanged
    · split at hr'
      · simp at hr'
        rw [← hr'] at hchanged
        exact absurd rfl hchanged
      · rw [hr] at hr'
        cases hr'
        exact absurd rfl hchanged
  | editText id newText =>
    unfold Friday.updateTaskStep at hr'
    split at hr' <;>
      · try simp only at hr'
        rw [hr] at hr'
        cases hr'
        exact absurd rfl hchanged
  | setSubtasks id subs =>
    unfold Friday.updateSubtasksStep at hr'
    split at hr' <;>
      · try simp only at hr'
        rw [hr] at hr'
        cases hr'
        exact absurd rfl hchanged
  | toggleSub id sid =>
    unfold Friday.toggleSubtaskStep at hr'
    split at hr' <;>
      · try simp only at hr'
        rw [hr] at hr'
        cases hr'
        exact absurd rfl hchanged
  | saveReminder id dateObj rec mode =>
    unfold Friday.updateReminderStep at hr'
    split at hr'
    · simp only at hr'
      cases hr'
      rfl
    · rw [hr] at hr'
      cases hr'
      exact absurd rfl hchanged
  | analysisResolve tempId input resp =>
    unfold Friday.applyAnalysisStep at hr'
    split at hr'
    · simp only at hr'
      exact analyzeTask_reminder_hasNotified input resp r' hr'
    · rw [hr] at hr'
      cases hr'
      exact absurd rfl hchanged
  | analysisFallback tempId =>
    unfold Friday.applyAnalysisFallbackStep at hr'
    split at hr' <;>
      · try simp only at hr'
        rw [hr] at hr'
        cases hr'
        exact absurd rfl hchanged

/-- C5 witness: the toggle roll-forward on the concrete daily sample
task advances the timestamp and indeed leaves `hasNotified = false`. -/
theorem C5_witness :
    ({ sampleDailyReminder with
       isoString := mkUTC 2024 1 11 9 0 0,
       hasNotified := false } : Reminder).hasNotified = false :=
  C5_isoString_advance_resets_hasNotified (toggleStep "a") (.toggle "a")
    sampleDailyTask sampleDailyReminder
    { sampleDailyReminder with isoString := mkUTC 2024 1 11 9 0 0, hasNotified := false }
    (by decide) (by decide) (by decide)

/-! ## Storage initialisation, AI fallbacks, and in-flight patches -/

/-- C6 counterexample: the startup initialiser does not recover from a
corrupt persisted value — on the unparseable value `"oops"` the
`JSON.parse` exception propagates (`none`) instead of producing the
empty task list. -/
theorem C6_counterexample :
    initialTasks (some "oops") = none ∧
    initialTasks (some "oops") ≠ some (Json.arr []) := by
  constructor
  · rfl
  · intro h
    exact Option.noConfusion ((rfl : initialTasks (some "oops") = none).symm.trans h)

/-- C6 (amended): at startup an absent persisted key yields the empty
task list, but a corrupt (unparseable) persisted value is NOT recovered:
the parse exception propagates out of the initialiser (modelled by
`none`) instead of the store starting from an empty list. -/
theorem C6_initial_store :
    initialTasks none = some (Json.arr []) ∧ initialTasks (some "oops") = none :=
  ⟨rfl, rfl⟩

/-- C7: whenever the analyze exchange fails — rejected call, absent
`response.text`, empty or unparseable reply — the caller receives
exactly the fallback of the verbatim input text, the default glyph and
no reminder; in particular failure on `"Buy milk"` yields
`⟨"Buy milk", "📝", none⟩`. -/
theorem C7_analyze_failure_fallback (input : String)
    (resp : Except Unit (Option String))
    (hfail : resp = .error () ∨ resp = .ok none ∨
      ∃ s, resp = .ok (some s) ∧ (s = "" ∨ Json.parse s = none)) :
    analyzeTask input resp = { text := input, category := "📝", reminder := none } ∧
    analyzeTask "Buy milk" (.error ())
      = { text := "Buy milk", category := "📝", reminder := none } := by
  refine ⟨?_, rfl⟩
  rcases hfail with h | h | ⟨s, hs, h⟩
  · subst h; rfl
  · subst h; rfl
  · subst hs
    by_cases hse : s = ""
    · simp [Friday.analyzeTask, hse]
    · rcases h with h | h
      · exact absurd h hse
      · simp [Friday.analyzeTask, hse, h]

/-- C7 witness: the fallback at the concrete failing exchange on
`"Buy milk"`. -/
theorem C7_witness :
    analyzeTask "Buy milk" (Except.error ())
      = { text := "Buy milk", category := "📝", reminder := none } :=
  (C7_analyze_failure_fallback "Buy milk" (.error ()) (Or.inl rfl)).1

theorem map_eq_self_of_forall {f : Task → Task} :
    ∀ l : List Task, (∀ x ∈ l, f x = x) → l.map f = l := by
  intro l
  induction l with
  | nil => intro _; rfl
  | cons x xs ih =>
    intro h
    rw [List.map_cons, h x (List.mem_cons_self x xs),
      ih fun y hy => h y (List.mem_cons_of_mem x hy)]

theorem updateSubtasks_empty_noop (i : String) (tasks : List Task)
    (h : ∀ u ∈ tasks, u.id = i → u.subtasks = []) :
    updateSubtasks i [] tasks = tasks := by
  unfold Friday.updateSubtasks
  apply map_eq_self_of_forall
  intro x hx
  unfold Friday.updateSubtasksStep
  by_cases hxi : x.id = i
  · rw [if_pos hxi, ← h x hx hxi]
  · rw [if_neg hxi]

/-- C8 counterexample: `breakDownTask` does not special-case empty
input — on input `""` with a successful array reply it returns the
reply's items, not the empty list. -/
theorem C8_counterexample :
    breakDownTask "" (.ok (some "[\"step\"]")) = [Json.str "step"] ∧
    breakDownTask "" (.ok (some "[\"step\"]")) ≠ [] := by
  constructor
  · rfl
  · intro h
    exact List.noConfusion
      ((rfl : breakDownTask "" (.ok (some "[\"step\"]")) = [Json.str "step"]).symm.trans h)

/-- C8 (amended): when the breakdown exchange fails — rejected call,
absent or empty `response.text`, unparseable JSON, or a reply that is
not a JSON array — `breakDownTask` returns the empty list and
`handleAiBreakdown` leaves the task store unchanged (no sub-tasks
added).  The code checks `Array.isArray` only and does not special-case
empty input, so `breakdown("")` is empty only under these same failure
conditions. -/
theorem C8_breakdown_failure_adds_nothing (t : Task)
    (resp : Except Unit (Option String))
    (hfail : resp = .error () ∨ resp = .ok none ∨
      ∃ s, resp = .ok (some s) ∧
        (s = "" ∨ Json.parse s = none ∨
          ∀ items, Json.parse s ≠ some (.arr items))) :
    breakDownTask t.text resp = [] ∧
    ∀ (freshIds : Nat → String) (tasks : List Task),
      (∀ u ∈ tasks, u.id = t.id → u.subtasks = []) →
      handleAiBreakdown t resp freshIds tasks = tasks := by
  have hempty : breakDownTask t.text resp = [] := by
    rcases hfail with h | h | ⟨s, hs, h⟩
    · subst h; rfl
    · subst h; rfl
    · subst hs
      by_cases hse : s = ""
      · simp [Friday.breakDownTask, hse]
      · rcases h with h | h | h
        · exact absurd h hse
        · simp [Friday.breakDownTask, hse, h]
        · unfold Friday.breakDownTask
          simp only
          rw [if_neg hse]
          cases hp : Json.parse s with
          | none => rfl
          | some j =>
            cases j with
            | arr items => exact absurd hp (h items)
            | null => rfl
            | bool b => rfl
            | num lex => rfl
            | str str => rfl
            | obj ms => rfl
  refine ⟨hempty, ?_⟩
  intro freshIds tasks hsub
  unfold Friday.handleAiBreakdown
  by_cases hlen : t.subtasks.length > 0
  · rw [if_pos hlen]
  · rw [if_neg hlen]
    simp only [hempty, List.enum_nil, List.map_nil]
    exact updateSubtasks_empty_noop t.id tasks hsub

/-- C9: resolving an in-flight annotation (or its error fallback) after
the target task has been deleted is a no-op on the task store: the
patch-by-id recreates no record, modifies no other task and leaves the
sequence exactly as it was. -/
theorem C9_patch_after_delete_noop (tempId : String) (analysis : Analysis)
    (tasks : List Task) :
    applyAnalysis tempId analysis (deleteTask tempId tasks) = deleteTask tempId tasks ∧
    applyAnalysisFallback tempId (deleteTask tempId tasks) = deleteTask tempId tasks := by
  have hmem : ∀ u ∈ deleteTask tempId tasks, ¬ u.id = tempId := by
    intro u hu
    unfold Friday.deleteTask at hu
    rw [List.mem_filter] at hu
    simpa using hu.2
  constructor
  · unfold Friday.applyAnalysis
    apply map_eq_self_of_forall
    intro x hx
    unfold Friday.applyAnalysisStep
    rw [if_neg (hmem x hx)]
  · unfold Friday.applyAnalysisFallback
    apply map_eq_self_of_forall
    intro x hx
    unfold Friday.applyAnalysisFallbackStep
    rw [if_neg (hmem x hx)]

/-- C8 witness: a concretely failing breakdown exchange yields the empty
list and leaves a concrete one-task store unchanged. -/
theorem C8_witness :
    breakDownTask sampleOnceTask.text (Except.error ()) = [] ∧
    handleAiBreakdown sampleOnceTask (Except.error ()) toString [sampleOnceTask]
      = [sampleOnceTask] := by
  have h := C8_breakdown_failure_adds_nothing sampleOnceTask (.error ()) (Or.inl rfl)
  refine ⟨h.1, h.2 toString [sampleOnceTask] ?_⟩
  intro u hu _
  rw [List.mem_singleton] at hu
  subst hu
  rfl
